import Mathlib

/-!
Shallow embedding of the tower-defence simulation core in
`src/game/MainScene.ts` (plus the shared types in `src/types.ts`).

Modelling conventions:
* JavaScript `number` values used by the simulation are modelled as exact
  rationals (`ℚ`); the constants involved (1.5, 0.85, 2.5, 1.25, 0.5, 0.4,
  0.45, ...) and `Math.floor` are translated exactly.
* `Math.pow(level, 1.6)` in `spawnEnemy` is a floating-point power whose
  value is irrational; it is kept as an uninterpreted parameter
  `pw : ℕ → ℚ` threaded into the functions that use it.  No verified
  property depends on its values.
* `Math.random()` (archetype roll) and `Phaser.Math.Between` (random path
  waypoints) are modelled by consuming a stream `rng : List ℚ` carried in
  the state.
* Phaser engine objects are replaced by plain data: an entity that the
  source `destroy()`s is removed from its list, so "active" = "present in
  the list"; weak projectile→enemy references become numeric ids looked up
  in the enemy list.
* Euclidean-distance comparisons (`Phaser.Math.Distance.Between ... <= r`,
  `... < 35`) are expressed on squared distances, which is equivalent:
  `d ≤ r ↔ (0 ≤ r ∧ d² ≤ r²)` and `d < 35 ↔ d² < 1225` for `d ≥ 0`.
* Purely cosmetic effects (graphics, tweens, health bars, damage text,
  camera shake, UI labels) and the external callbacks `onStatsUpdate` /
  `onTowerSelected` are dropped; the `onGameOver` callback is recorded in
  the boolean field `gameOverFired`.
* `Phaser.Curves.Path.getPoint` is an external library routine; it is
  modelled, following the spec's §4.1 description, as linear interpolation
  along the waypoint polyline with an equal share of `t` per segment.
-/

namespace TowerDefence

/-- A 2-D point with exact rational coordinates. -/
structure Point where
  x : ℚ
  y : ℚ
deriving DecidableEq

/-- Enemy archetypes, from the `EnemyArchetype` enum in `MainScene.ts`. -/
inductive EnemyArchetype where
  | SCOUT
  | SENTINEL
  | GOLIATH
  | BOSS
deriving DecidableEq

/-- Targeting priorities, from the `TargetingPriority` enum in `src/types.ts`. -/
inductive TargetingPriority where
  | FIRST
  | STRONGEST
  | WEAKEST
  | CLOSEST
deriving DecidableEq

/-- The simulation-relevant fields of `TowerConfig` (`src/types.ts`); the
cosmetic `name`, `color` and `description` fields are omitted. -/
structure TowerConfig where
  id : String
  cost : ℚ
  damage : ℚ
  range : ℚ
  fireRate : ℚ
deriving DecidableEq

/-- An enemy, as built by `spawnEnemy`: archetype, hp, maxHp, speed and the
path progress parameter `t`; `eid` stands in for the object identity of the
Phaser game object. -/
structure Enemy where
  eid : ℕ
  archetype : EnemyArchetype
  hp : ℚ
  maxHp : ℚ
  speed : ℚ
  t : ℚ
  pos : Point
deriving DecidableEq

/-- A placed tower, as built by `placeTower`: the per-tower `config` copy
(`{ ...this.currentTowerType }`), the upgrade `level`, the targeting
priority and the `nextFire` timestamp.  The source's `tower-${Date.now()}`
string id is modelled by a numeric counter. -/
structure Tower where
  id : ℕ
  pos : Point
  level : ℕ
  config : TowerConfig
  targetingPriority : TargetingPriority
  nextFire : ℚ
deriving DecidableEq

/-- A projectile, as built by `shoot`: damage and source-tower type id are
copied from the firing tower, `target` is the (weak) id of the target
enemy. -/
structure Projectile where
  pid : ℕ
  damage : ℚ
  towerId : String
  target : ℕ
  pos : Point
deriving DecidableEq

/-- The `GameStats` record of `src/types.ts`. -/
structure GameStats where
  gold : ℚ
  lives : ℤ
  level : ℕ
  score : ℚ
  towerCount : ℕ
  waveActive : Bool
  gameSpeed : ℚ
deriving DecidableEq

/-- The whole mutable state of `MainScene` that the simulation core touches. -/
structure GameState where
  stats : GameStats
  enemies : List Enemy
  towers : List Tower
  projectiles : List Projectile
  path : List Point
  width : ℚ
  height : ℚ
  currentTowerType : Option TowerConfig
  nextEnemyTime : ℚ
  enemiesRemaining : ℕ
  waveInProgress : Bool
  scaledTime : ℚ
  timeScale : ℚ
  nextEnemyId : ℕ
  nextTowerId : ℕ
  nextProjId : ℕ
  rng : List ℚ
  gameOverFired : Bool
deriving DecidableEq

/-- Squared Euclidean distance; comparisons of `Phaser.Math.Distance.Between`
against a bound are carried out on squares (see the header note). -/
def dist2 (p q : Point) : ℚ :=
  (p.x - q.x) ^ 2 + (p.y - q.y) ^ 2

/-- Model of the external `Phaser.Curves.Path.getPoint`, following the
spec's §4.1 description: the polyline of waypoints interpolated linearly,
each segment receiving an equal share of `t`; `t` outside `[0,1]` is
clamped to the ends. -/
def getPoint (pts : List Point) (t : ℚ) : Point :=
  match pts with
  | [] => ⟨0, 0⟩
  | [p] => p
  | p :: q :: rest =>
    let n := (q :: rest).length
    let u := t * n
    let i := min (max ⌊u⌋ 0).toNat (n - 1)
    let frac := u - i
    let a := (p :: q :: rest).getD i ⟨0, 0⟩
    let b := (p :: q :: rest).getD (i + 1) ⟨0, 0⟩
    ⟨a.x + (b.x - a.x) * frac, a.y + (b.y - a.y) * frac⟩

/-- `checkPathProximity` (`MainScene.ts` 221-228): sample `t` from 0 to 1 in
steps of 0.005 (201 samples) and report whether any sampled path point is
within distance 35 of the query point (`d < 35 ↔ d² < 1225`).  A missing
path (`!this.path`) is the empty waypoint list and yields `false`. -/
def checkPathProximity (s : GameState) (pt : Point) : Bool :=
  if s.path.isEmpty then false
  else (List.range 201).any fun k =>
    decide (dist2 (getPoint s.path ((k : ℚ) / 200)) pt < 1225)

/-- Model of the external `Phaser.Math.Between lo hi` random draw: the
stream value `r` (drawn from the state's rng stream) is mapped affinely
into the interval. -/
def between (lo hi r : ℚ) : ℚ :=
  lo + (hi - lo) * r

/-- Replace the first element satisfying `p` by its image under `f`
(the effect of mutating the object returned by `Array.prototype.find`). -/
def updateFirst {α : Type} (p : α → Bool) (f : α → α) : List α → List α
  | [] => []
  | a :: l => if p a then f a :: l else a :: updateFirst p f l

/-- Remove the first element satisfying `p` (the effect of `destroy()` on
the object returned by a lookup). -/
def removeFirst {α : Type} (p : α → Bool) : List α → List α
  | [] => []
  | a :: l => if p a then l else a :: removeFirst p l

/-- Waypoint generation loop of `createPath` (`MainScene.ts` 112-116): for
each column index `i` from 1 to `segments`, x is `width/segments*i` and y is
mid-height for the last column, else a random value in `[80, height-80]`
drawn from the rng stream.  Returns the generated waypoints and the
remaining stream. -/
def genWaypoints (width height : ℚ) (segments : ℕ) :
    List ℕ → List ℚ → List Point × List ℚ
  | [], rng => ([], rng)
  | i :: rest, rng =>
    if i = segments then
      let res := genWaypoints width height segments rest rng
      (⟨width / segments * i, height / 2⟩ :: res.1, res.2)
    else
      let r := rng.headD 0
      let res := genWaypoints width height segments rest rng.tail
      (⟨width / segments * i, between 80 (height - 80) r⟩ :: res.1, res.2)

/-- `createPath` (`MainScene.ts` 107-117): the path starts at
`(-50, height/2)` and gains `segments = min(3 + ⌊level/2.5⌋, 15)` further
waypoints. -/
def createPath (width height : ℚ) (level : ℕ) (rng : List ℚ) :
    List Point × List ℚ :=
  let segments := min (3 + (⌊(level : ℚ) / 2.5⌋).toNat) 15
  let res := genWaypoints width height segments
    ((List.range segments).map (· + 1)) rng
  (⟨-50, height / 2⟩ :: res.1, res.2)

/-- Damage computation of `handleHit` (`MainScene.ts` 369-379): start from
the projectile's damage; against GOLIATH or BOSS, a `"rapid"` source is
halved and a `"sniper"` source is multiplied by 1.25. -/
def finalDamageOf (p : Projectile) (e : Enemy) : ℚ :=
  let fd0 := p.damage
  if e.archetype = .GOLIATH ∨ e.archetype = .BOSS then
    let fd1 := if p.towerId = "rapid" then fd0 * 0.5 else fd0
    let fd2 := if p.towerId = "sniper" then fd1 * 1.25 else fd1
    fd2
  else fd0

/-- The spec's resistance-factor table (§4.3), stated independently of the
source's sequential-`if` computation so the two can be compared. -/
def resistanceFactor (a : EnemyArchetype) (towerTypeId : String) : ℚ :=
  if a = .GOLIATH ∨ a = .BOSS then
    if towerTypeId = "rapid" then 0.5
    else if towerTypeId = "sniper" then 1.25
    else 1
  else 1

/-- The spec's per-archetype gold multiplier (§4.3): GOLIATH 2.5, BOSS 10,
else 1. -/
def goldMult (a : EnemyArchetype) : ℚ :=
  match a with
  | .GOLIATH => 2.5
  | .BOSS => 10
  | _ => 1

/-- The spec's per-archetype score multiplier (§4.3): GOLIATH 2, BOSS 10,
else 1. -/
def scoreMult (a : EnemyArchetype) : ℚ :=
  match a with
  | .GOLIATH => 2
  | .BOSS => 10
  | _ => 1

/-- `handleHit` (`MainScene.ts` 364-424), keyed by projectile and enemy id:
a silent no-op if either entity is gone; otherwise apply the resisted /
boosted damage, destroy the projectile unconditionally, and on a kill add
the archetype-scaled gold and score rewards and destroy the enemy. -/
def handleHit (s : GameState) (pid eid : ℕ) : GameState :=
  match s.projectiles.find? (fun q => q.pid == pid),
        s.enemies.find? (fun e2 => e2.eid == eid) with
  | some p, some e =>
    let fd := finalDamageOf p e
    let hpNew := e.hp - fd
    let projectiles2 := removeFirst (fun q => q.pid == pid) s.projectiles
    if hpNew ≤ 0 then
      let goldReward0 : ℚ := 40 + (⌊(s.stats.level : ℚ) * 8⌋ : ℚ)
      let scoreReward0 : ℚ := 800 * (s.stats.level : ℚ)
      let goldReward :=
        if e.archetype = .GOLIATH then goldReward0 * 2.5
        else if e.archetype = .BOSS then goldReward0 * 10
        else goldReward0
      let scoreReward :=
        if e.archetype = .GOLIATH then scoreReward0 * 2
        else if e.archetype = .BOSS then scoreReward0 * 10
        else scoreReward0
      { s with
        projectiles := projectiles2
        enemies := removeFirst (fun e2 => e2.eid == eid) s.enemies
        stats := { s.stats with
          gold := s.stats.gold + goldReward
          score := s.stats.score + scoreReward } }
    else
      { s with
        projectiles := projectiles2
        enemies := updateFirst (fun e2 => e2.eid == eid)
          (fun e2 => { e2 with hp := hpNew }) s.enemies }
  | _, _ => s

/-- In-range test of `getPriorityTarget` (`MainScene.ts` 317-319):
`Distance.Between(tower, e) ≤ tower.config.range`, expressed on squares. -/
def inRangeOf (tw : Tower) (e : Enemy) : Bool :=
  decide (0 ≤ tw.config.range ∧ dist2 tw.pos e.pos ≤ tw.config.range ^ 2)

/-- FIRST reduction step: keep the enemy with larger progress `t`. -/
def selFirst (prev curr : Enemy) : Enemy :=
  if prev.t > curr.t then prev else curr

/-- STRONGEST reduction step: keep the enemy with larger hp. -/
def selStrongest (prev curr : Enemy) : Enemy :=
  if prev.hp > curr.hp then prev else curr

/-- WEAKEST reduction step: keep the enemy with smaller hp. -/
def selWeakest (prev curr : Enemy) : Enemy :=
  if prev.hp < curr.hp then prev else curr

/-- CLOSEST reduction step: keep the enemy nearer to the tower (squared
distances; strict-inequality comparison as in the source). -/
def selClosest (tw : Tower) (prev curr : Enemy) : Enemy :=
  if dist2 tw.pos prev.pos < dist2 tw.pos curr.pos then prev else curr

/-- `getPriorityTarget` (`MainScene.ts` 315-338): filter the live enemies to
those in range (destroyed enemies are no longer in the list, which models
the source's `e.active` filter), return `none` if the filtered list is
empty, else `reduce` it by the tower's priority policy. -/
def getPriorityTarget (s : GameState) (tw : Tower) : Option Enemy :=
  match s.enemies.filter (inRangeOf tw) with
  | [] => none
  | h :: rest =>
    some (match tw.targetingPriority with
      | .FIRST => rest.foldl selFirst h
      | .STRONGEST => rest.foldl selStrongest h
      | .WEAKEST => rest.foldl selWeakest h
      | .CLOSEST => rest.foldl (selClosest tw) h)

/-- The per-tower firing decision inside the tower loop of `update`
(`MainScene.ts` 180-188), restricted to the tower record itself: when the
clock has passed `nextFire` and a target exists, `nextFire` is pushed to
`scaledTime + config.fireRate`; otherwise the tower is untouched. -/
def fireTowerUpdate (s : GameState) (tw : Tower) : Tower :=
  if tw.nextFire < s.scaledTime then
    match getPriorityTarget s tw with
    | some _ => { tw with nextFire := s.scaledTime + tw.config.fireRate }
    | none => tw
  else tw

/-- The tower loop of `update` (`MainScene.ts` 180-188) together with the
projectile creation of `shoot` (340-362): walk the towers in order, fire
each eligible one at its priority target (copying damage and tower-type id
onto a fresh projectile placed at the tower), and push `nextFire`.
Targeting reads only the enemy list and the clock, which the loop does not
modify, so the walk is a simple structural recursion.  Returns the updated
towers and the projectiles created, numbering projectiles from
`pidStart`. -/
def fireStepAux (s : GameState) (pidStart : ℕ) :
    List Tower → List Tower × List Projectile
  | [] => ([], [])
  | tw :: rest =>
    if tw.nextFire < s.scaledTime then
      match getPriorityTarget s tw with
      | some tgt =>
        let proj : Projectile :=
          { pid := pidStart, damage := tw.config.damage,
            towerId := tw.config.id, target := tgt.eid, pos := tw.pos }
        let res := fireStepAux s (pidStart + 1) rest
        ({ tw with nextFire := s.scaledTime + tw.config.fireRate } :: res.1,
          proj :: res.2)
      | none =>
        let res := fireStepAux s pidStart rest
        (tw :: res.1, res.2)
    else
      let res := fireStepAux s pidStart rest
      (tw :: res.1, res.2)

/-- The tower-firing sub-step of the tick. -/
def fireStep (s : GameState) : GameState :=
  let res := fireStepAux s s.nextProjId s.towers
  { s with towers := res.1, projectiles := s.projectiles ++ res.2,
           nextProjId := s.nextProjId + res.2.length }

/-- Advance one enemy (`MainScene.ts` 193-199): `t += speed*scaledDelta/
100000` and reposition on the path (position is only written when the path
yields a point, i.e. when a path exists). -/
def moveEnemy (path : List Point) (scaledDelta : ℚ) (e : Enemy) : Enemy :=
  let tNew := e.t + e.speed * scaledDelta / 100000
  { e with t := tNew, pos := if path.isEmpty then e.pos else getPoint path tNew }

/-- The enemy loop of `update` (`MainScene.ts` 190-208): move each enemy;
an enemy whose progress reaches 1 is destroyed, costs a life, and fires the
game-over callback when lives drop to 0 or below.  The loop threads the
lives counter and the callback flag left to right as the source's `forEach`
does. -/
def enemyMoveAux (path : List Point) (scaledDelta : ℚ) :
    List Enemy → ℤ → Bool → List Enemy × ℤ × Bool
  | [], lives, fired => ([], lives, fired)
  | e :: rest, lives, fired =>
    let e2 := moveEnemy path scaledDelta e
    if 1 ≤ e2.t then
      enemyMoveAux path scaledDelta rest (lives - 1)
        (fired || decide (lives - 1 ≤ 0))
    else
      let res := enemyMoveAux path scaledDelta rest lives fired
      (e2 :: res.1, res.2)

/-- The enemy-movement sub-step of the tick. -/
def enemyMoveStep (scaledDelta : ℚ) (s : GameState) : GameState :=
  let res := enemyMoveAux s.path scaledDelta s.enemies s.stats.lives s.gameOverFired
  { s with enemies := res.1,
           stats := { s.stats with lives := res.2.1 },
           gameOverFired := res.2.2 }

/-- The projectile loop of `update` (`MainScene.ts` 210-218): a projectile
whose target is gone is destroyed; the rest are kept (their velocity and
rotation updates are handed to the external physics engine and do not
change the simulation state inside `update`). -/
def projectileStepAux (enemies : List Enemy) : List Projectile → List Projectile
  | [] => []
  | p :: rest =>
    if (enemies.find? (fun e => e.eid == p.target)).isSome then
      p :: projectileStepAux enemies rest
    else
      projectileStepAux enemies rest

/-- The projectile-maintenance sub-step of the tick. -/
def projectileStep (s : GameState) : GameState :=
  { s with projectiles := projectileStepAux s.enemies s.projectiles }

/-- `spawnEnemy` (`MainScene.ts` 230-300): roll the archetype (boss levels
always spawn BOSS; otherwise the rng stream supplies `Math.random()`),
derive hp and speed from the level-scaled base stats and the archetype
multipliers, and append the new enemy at the path start.  `pw` stands for
the float computation `Math.pow(level, 1.6)` (see the header note).
Cosmetic size/colour data is dropped. -/
def spawnEnemy (pw : ℕ → ℚ) (s : GameState) : GameState :=
  if s.path.isEmpty then s
  else
    let level := s.stats.level
    let rolled :
        EnemyArchetype × List ℚ :=
      if level % 10 = 0 then (.BOSS, s.rng)
      else
        let roll := s.rng.headD 1
        (if 4 ≤ level ∧ roll < 0.25 then .GOLIATH
         else if 2 ≤ level ∧ roll < 0.45 then .SCOUT
         else .SENTINEL, s.rng.tail)
    let archetype := rolled.1
    let hpMultiplier : ℚ :=
      match archetype with
      | .SCOUT => 0.5
      | .GOLIATH => 4
      | .BOSS => 15 + (level : ℚ) / 2
      | .SENTINEL => 1
    let speedMultiplier : ℚ :=
      match archetype with
      | .SCOUT => 1.7
      | .GOLIATH => 0.6
      | .BOSS => 0.5
      | .SENTINEL => 1
    let baseHp : ℚ := 15 + pw level * 8 + (level : ℚ) * 15
    let baseSpeed : ℚ := 3.2 + (level : ℚ) * 0.45
    let startPoint := getPoint s.path 0
    let enemy : Enemy :=
      { eid := s.nextEnemyId, archetype := archetype,
        hp := baseHp * hpMultiplier, maxHp := baseHp * hpMultiplier,
        speed := baseSpeed * speedMultiplier, t := 0, pos := startPoint }
    { s with enemies := s.enemies ++ [enemy],
             nextEnemyId := s.nextEnemyId + 1, rng := rolled.2 }

/-- The clock sub-step of the tick (`MainScene.ts` 136-137): add the
time-scaled delta to the simulated clock. -/
def clockStep (delta : ℚ) (s : GameState) : GameState :=
  { s with scaledTime := s.scaledTime + delta * s.timeScale }

/-- The wave-director spawn check of the tick (`MainScene.ts` 169-174). -/
def spawnStep (pw : ℕ → ℚ) (s : GameState) : GameState :=
  if s.waveInProgress ∧ 0 < s.enemiesRemaining ∧ s.nextEnemyTime < s.scaledTime then
    let s1 := spawnEnemy pw s
    { s1 with enemiesRemaining := s1.enemiesRemaining - 1,
              nextEnemyTime := s1.scaledTime + 1200 / (1 + (s1.stats.level : ℚ) * 0.4) }
  else s

/-- `completeLevel` (`MainScene.ts` 605-615): clear the wave flags, bump the
level, grant `350 + newLevel*60` gold, and either fire the terminal
callback (new level above 30) or regenerate the path for the new level. -/
def completeLevel (s : GameState) : GameState :=
  let levelNew := s.stats.level + 1
  let s1 := { s with
    waveInProgress := false
    stats := { s.stats with
      waveActive := false
      level := levelNew
      gold := s.stats.gold + (350 + (levelNew : ℚ) * 60) } }
  if 30 < levelNew then { s1 with gameOverFired := true }
  else
    let res := createPath s1.width s1.height levelNew s1.rng
    { s1 with path := res.1, rng := res.2 }

/-- The wave-completion check of the tick (`MainScene.ts` 176-178): the wave
is in progress, no spawns remain, and no live enemy remains
(`countActive() === 0`). -/
def completionStep (s : GameState) : GameState :=
  if s.waveInProgress ∧ s.enemiesRemaining = 0 ∧ s.enemies.length = 0 then
    completeLevel s
  else s

/-- The per-tick `update` routine (`MainScene.ts` 135-219) with the
rendering blocks dropped, in the source's order: clock, wave-director spawn
check, wave-completion check, tower firing, enemy movement, projectile
maintenance. -/
def update (pw : ℕ → ℚ) (delta : ℚ) (s : GameState) : GameState :=
  let scaledDelta := delta * s.timeScale
  let s0 := { s with scaledTime := s.scaledTime + scaledDelta }
  let s1 :=
    if s0.waveInProgress ∧ 0 < s0.enemiesRemaining ∧ s0.nextEnemyTime < s0.scaledTime then
      let t1 := spawnEnemy pw s0
      { t1 with enemiesRemaining := t1.enemiesRemaining - 1,
                nextEnemyTime := t1.scaledTime + 1200 / (1 + (t1.stats.level : ℚ) * 0.4) }
    else s0
  let s2 :=
    if s1.waveInProgress ∧ s1.enemiesRemaining = 0 ∧ s1.enemies.length = 0 then
      completeLevel s1
    else s1
  let s3 :=
    let res := fireStepAux s2 s2.nextProjId s2.towers
    { s2 with towers := res.1, projectiles := s2.projectiles ++ res.2,
              nextProjId := s2.nextProjId + res.2.length }
  let s4 :=
    let res := enemyMoveAux s3.path scaledDelta s3.enemies s3.stats.lives s3.gameOverFired
    { s3 with enemies := res.1,
              stats := { s3.stats with lives := res.2.1 },
              gameOverFired := res.2.2 }
  { s4 with projectiles := projectileStepAux s4.enemies s4.projectiles }

/-- The per-tick routine in the ORDER THE SPEC DESCRIBES (§5 and claim C1):
clock advance, wave-director spawn check, enemy movement, tower firing,
projectile maintenance, and only then the wave-completion check.  This is
the spec-side definition of the refinement claim, to be compared with
`update` above. -/
def updateSpecOrder (pw : ℕ → ℚ) (delta : ℚ) (s : GameState) : GameState :=
  completionStep (projectileStep (fireStep
    (enemyMoveStep (delta * s.timeScale) (spawnStep pw (clockStep delta s)))))

/-- `placeTower` (`MainScene.ts` 426-514) with the visual effects dropped:
no selected tower type or failed gold / path-proximity check leaves the
state unchanged; otherwise deduct the cost, bump `towerCount`, and append a
fresh level-1 tower holding a copy of the selected config. -/
def placeTower (s : GameState) (p : Point) : GameState :=
  match s.currentTowerType with
  | none => s
  | some cfg =>
    if s.stats.gold < cfg.cost then s
    else if checkPathProximity s p then s
    else
      let tower : Tower :=
        { id := s.nextTowerId, pos := p, level := 1, config := cfg,
          targetingPriority := .FIRST, nextFire := 0 }
      { s with
        stats := { s.stats with
          gold := s.stats.gold - cfg.cost
          towerCount := s.stats.towerCount + 1 }
        towers := s.towers ++ [tower]
        nextTowerId := s.nextTowerId + 1 }

/-- The stat mutation applied by `upgradeTower` to the found tower
(`MainScene.ts` 520-523). -/
def upgradeTowerF (t : Tower) : Tower :=
  { t with
    level := t.level + 1
    config := { t.config with
      damage := (⌊t.config.damage * 1.5⌋ : ℚ)
      fireRate := (⌊t.config.fireRate * 0.85⌋ : ℚ) } }

/-- `upgradeTower` (`MainScene.ts` 516-559) with the visual effects and the
re-selection callback dropped: no-op when no tower carries the id, else
mutate the found tower in place. -/
def upgradeTower (s : GameState) (towerId : ℕ) : GameState :=
  if (s.towers.find? (fun t => t.id == towerId)).isSome then
    { s with towers := updateFirst (fun t => t.id == towerId) upgradeTowerF s.towers }
  else s

/-- `startWave` (`MainScene.ts` 595-603): no-op while a wave is in progress;
otherwise raise the wave flags and compute the wave size — boss levels
(`level % 10 == 0`) get `max(1, ⌊level/5⌋)` enemies, other levels
`20 + ⌊level*8⌋`. -/
def startWave (s : GameState) : GameState :=
  if s.waveInProgress then s
  else
    { s with
      waveInProgress := true
      stats := { s.stats with waveActive := true }
      enemiesRemaining :=
        if s.stats.level % 10 = 0 then
          max 1 (⌊(s.stats.level : ℚ) / 5⌋).toNat
        else 20 + (⌊(s.stats.level : ℚ) * 8⌋).toNat }

/-- Arbitrary stand-in for the external float computation
`Math.pow(level, 1.6)`; no verified property depends on its values. -/
def pwZero : ℕ → ℚ := fun _ => 0

/-- The initial `GameStats` of `MainScene.init` (`MainScene.ts` 66-74). -/
def baseStats : GameStats :=
  { gold := 500, lives := 20, level := 1, score := 0, towerCount := 0,
    waveActive := false, gameSpeed := 1 }

/-- A small concrete scene used by the witnesses: fresh stats, a two-point
straight path, no entities. -/
def baseState : GameState :=
  { stats := baseStats, enemies := [], towers := [], projectiles := [],
    path := [⟨0, 0⟩, ⟨100, 0⟩], width := 800, height := 600,
    currentTowerType := none, nextEnemyTime := 0, enemiesRemaining := 0,
    waveInProgress := false, scaledTime := 0, timeScale := 1,
    nextEnemyId := 0, nextTowerId := 0, nextProjId := 0, rng := [],
    gameOverFired := false }

/-- An enemy one movement step away from the core (progress reaches 1 on a
tick of scaled delta 100000 at speed 1). -/
def cexEnemy : Enemy :=
  { eid := 0, archetype := .SENTINEL, hp := 10, maxHp := 10, speed := 1,
    t := 0, pos := ⟨0, 0⟩ }

/-- A state in which the wave has no spawns left and its last enemy reaches
the core on the current tick: the source's tick (completion check before
enemy movement) does not complete the level this tick, the spec's claimed
order (completion check last) does. -/
def cexState : GameState :=
  { baseState with
    waveInProgress := true
    stats := { baseStats with waveActive := true }
    enemies := [cexEnemy]
    rng := [0, 0, 0, 0] }

/-! General helper lemmas about the sub-steps. -/

theorem stats_fireStep (s : GameState) : (fireStep s).stats = s.stats := rfl

theorem stats_projectileStep (s : GameState) : (projectileStep s).stats = s.stats := rfl

theorem level_enemyMoveStep (d : ℚ) (s : GameState) :
    (enemyMoveStep d s).stats.level = s.stats.level := rfl

theorem level_completeLevel (s : GameState) :
    (completeLevel s).stats.level = s.stats.level + 1 := by
  by_cases h : 30 < s.stats.level + 1 <;> simp [completeLevel, h]

/-- On the counterexample state the enemy loop destroys the lone enemy
(its progress reaches 1) and decrements lives to 19. -/
theorem enemyMoveAux_cex :
    enemyMoveAux cexState.path ((100000 : ℚ) * cexState.timeScale)
      [cexEnemy] (20 : ℤ) false = ([], 19, false) := by
  have ht : (1 : ℚ) ≤
      (moveEnemy cexState.path ((100000 : ℚ) * cexState.timeScale) cexEnemy).t := by
    simp [moveEnemy, cexEnemy, cexState, baseState]
  simp [enemyMoveAux, ht]

/-- Under the spec's claimed sub-step order, the counterexample state
completes the level during the tick: the level becomes 2. -/
theorem specOrder_cex_level :
    (updateSpecOrder pwZero 100000 cexState).stats.level = 2 := by
  have h01 : spawnStep pwZero (clockStep 100000 cexState) =
      clockStep 100000 cexState := rfl
  have h02 : enemyMoveStep ((100000 : ℚ) * cexState.timeScale)
        (clockStep 100000 cexState)
      = { clockStep 100000 cexState with
            enemies := []
            stats := { (clockStep 100000 cexState).stats with lives := 19 }
            gameOverFired := false } := by
    unfold enemyMoveStep
    rw [show (clockStep 100000 cexState).path = cexState.path from rfl,
        show (clockStep 100000 cexState).enemies = [cexEnemy] from rfl,
        show (clockStep 100000 cexState).stats.lives = (20 : ℤ) from rfl,
        show (clockStep 100000 cexState).gameOverFired = false from rfl,
        enemyMoveAux_cex]
    rfl
  unfold updateSpecOrder
  rw [h01, h02]
  rfl

/-- Claim C1, counterexample: the tick is NOT the composition of its
sub-steps in the spec's claimed order.  On `cexState` (a wave whose last
enemy reaches the core this very tick), the source's tick leaves the level
at 1 — its wave-completion check ran before enemy movement, while the
enemy was still alive — whereas the spec's claimed order (completion check
after all entity updates) completes the level to 2. -/
theorem c1_spec_order_counterexample :
    update pwZero 100000 cexState ≠ updateSpecOrder pwZero 100000 cexState := by
  intro h
  have h1 : (update pwZero 100000 cexState).stats.level = 1 := by decide
  rw [h] at h1
  exact absurd (h1.symm.trans specOrder_cex_level) (by decide)

/-- Claim C1, amended: within one tick the source's fixed sub-step order is
clock advance, then the wave-director spawn check, then the
wave-completion/level-transition check, then tower firing, then enemy
movement (including reach-core life loss), then projectile
maintenance — i.e. `update` is the composition of its sub-steps in that
order (not the spec's order, which is refuted above). -/
theorem c1_tick_suborder (pw : ℕ → ℚ) (delta : ℚ) (s : GameState) :
    update pw delta s =
      projectileStep (enemyMoveStep (delta * s.timeScale)
        (fireStep (completionStep (spawnStep pw (clockStep delta s))))) :=
  rfl

theorem updateFirst_congr {α : Type} {p : α → Bool} {f g : α → α} :
    ∀ {l : List α} {a : α}, l.find? p = some a → f a = g a →
      updateFirst p f l = updateFirst p g l := by
  intro l
  induction l with
  | nil => intro a h; simp at h
  | cons b l ih =>
    intro a h hfg
    by_cases hb : p b
    · rw [List.find?_cons_of_pos _ hb] at h
      cases h
      simp [updateFirst, hb, hfg]
    · rw [List.find?_cons_of_neg _ hb] at h
      simp [updateFirst, hb, ih h hfg]

/-- A projectile with damage 10 pointed at a GOLIATH, used by witnesses. -/
def wProj : Projectile :=
  { pid := 7, damage := 10, towerId := "rapid", target := 5, pos := ⟨0, 0⟩ }

/-- A GOLIATH enemy with 30 hp, used by witnesses. -/
def wGoliath : Enemy :=
  { eid := 5, archetype := .GOLIATH, hp := 30, maxHp := 30, speed := 1,
    t := 0, pos := ⟨50, 0⟩ }

/-- A state holding `wProj` and `wGoliath`, used by witnesses. -/
def wHitState : GameState :=
  { baseState with enemies := [wGoliath], projectiles := [wProj] }

/-- Claim C2: the damage a hit subtracts from the enemy's hp is the
projectile's damage times the resistance factor of the spec's table — 0.5
for a "rapid" source against GOLIATH/BOSS, 1.25 for a "sniper" source
against GOLIATH/BOSS, 1.0 otherwise; in particular damage 10 against a
GOLIATH resolves to 5 from "rapid", 12.5 from "sniper" and 10 from
"basic". -/
theorem c2_hit_resistance (s : GameState) (pid eid : ℕ) (p : Projectile) (e : Enemy)
    (hfp : s.projectiles.find? (fun q => q.pid == pid) = some p)
    (hfe : s.enemies.find? (fun e2 => e2.eid == eid) = some e) :
    finalDamageOf p e = p.damage * resistanceFactor e.archetype p.towerId ∧
    (¬ e.hp - finalDamageOf p e ≤ 0 →
      (handleHit s pid eid).enemies =
        updateFirst (fun e2 => e2.eid == eid)
          (fun e2 => { e2 with
            hp := e2.hp - p.damage * resistanceFactor e.archetype p.towerId })
          s.enemies) ∧
    (p.damage = 10 → e.archetype = .GOLIATH →
      (p.towerId = "rapid" → finalDamageOf p e = 5) ∧
      (p.towerId = "sniper" → finalDamageOf p e = 12.5) ∧
      (p.towerId = "basic" → finalDamageOf p e = 10)) := by
  have hfd : finalDamageOf p e = p.damage * resistanceFactor e.archetype p.towerId := by
    unfold finalDamageOf resistanceFactor
    by_cases ha : e.archetype = .GOLIATH ∨ e.archetype = .BOSS
    · by_cases hr : p.towerId = "rapid"
      · have hs : ¬ p.towerId = "sniper" := by rw [hr]; decide
        simp [ha, hr, hs]
      · by_cases hs : p.towerId = "sniper"
        · simp [ha, hr, hs]
        · simp [ha, hr, hs]
    · simp [ha]
  refine ⟨hfd, ?_, ?_⟩
  · intro hsurv
    have hmain : handleHit s pid eid =
        { s with
          projectiles := removeFirst (fun q => q.pid == pid) s.projectiles
          enemies := updateFirst (fun e2 => e2.eid == eid)
            (fun e2 => { e2 with hp := e.hp - finalDamageOf p e }) s.enemies } := by
      unfold handleHit
      rw [hfp, hfe]
      simp only [if_neg hsurv]
    rw [hmain]
    exact updateFirst_congr hfe (by rw [hfd])
  · intro hdmg harch
    refine ⟨?_, ?_, ?_⟩ <;> intro hid <;>
      rw [hfd, hdmg, harch] <;> unfold resistanceFactor <;> simp [hid] <;> norm_num

/-- Witness for C2 at a concrete input: 10 damage from a "rapid" projectile
against a GOLIATH resolves to 5. -/
theorem c2_hit_resistance_witness : finalDamageOf wProj wGoliath = 5 := by
  have h := c2_hit_resistance wHitState 7 5 wProj wGoliath rfl rfl
  exact (h.2.2 rfl rfl).1 rfl

theorem goldReward_floor (L : ℕ) (a : EnemyArchetype) :
    (if a = .GOLIATH then (40 + (⌊(L : ℚ) * 8⌋ : ℚ)) * 2.5
     else if a = .BOSS then (40 + (⌊(L : ℚ) * 8⌋ : ℚ)) * 10
     else 40 + (⌊(L : ℚ) * 8⌋ : ℚ)) =
      (⌊(40 + (L : ℚ) * 8) * goldMult a⌋ : ℚ) := by
  have h8 : ⌊(L : ℚ) * 8⌋ = ((8 * L : ℕ) : ℤ) := by
    rw [show (L : ℚ) * 8 = ((8 * L : ℕ) : ℚ) by push_cast; ring]
    exact Int.floor_natCast _
  cases a <;> simp only [goldMult, reduceCtorEq, if_true, if_false] <;> rw [h8]
  case GOLIATH =>
    rw [show (40 + (L : ℚ) * 8) * 2.5 = ((100 + 20 * L : ℕ) : ℚ) by push_cast; ring]
    rw [Int.floor_natCast]
    push_cast
    ring
  case BOSS =>
    rw [show (40 + (L : ℚ) * 8) * 10 = ((400 + 80 * L : ℕ) : ℚ) by push_cast; ring]
    rw [Int.floor_natCast]
    push_cast
    ring
  case SCOUT =>
    rw [show (40 + (L : ℚ) * 8) * 1 = ((40 + 8 * L : ℕ) : ℚ) by push_cast; ring]
    rw [Int.floor_natCast]
    push_cast
    ring
  case SENTINEL =>
    rw [show (40 + (L : ℚ) * 8) * 1 = ((40 + 8 * L : ℕ) : ℚ) by push_cast; ring]
    rw [Int.floor_natCast]
    push_cast
    ring

/-- A SENTINEL enemy about to die (5 hp), used by the C3 witness. -/
def wDying : Enemy :=
  { eid := 5, archetype := .SENTINEL, hp := 5, maxHp := 30, speed := 1,
    t := 0, pos := ⟨50, 0⟩ }

/-- A basic projectile pointed at `wDying`, used by the C3 witness. -/
def wBasicProj : Projectile :=
  { pid := 7, damage := 10, towerId := "basic", target := 5, pos := ⟨0, 0⟩ }

/-- A state holding `wBasicProj` and `wDying`, used by the C3 witness. -/
def wKillState : GameState :=
  { baseState with enemies := [wDying], projectiles := [wBasicProj] }

/-- Claim C3: a kill at level L adds exactly `⌊(40 + L*8) * goldMult⌋` gold
and `(800*L) * scoreMult` score, with (goldMult, scoreMult) = (2.5, 2) for
GOLIATH, (10, 10) for BOSS, (1, 1) otherwise; both strictly increase. -/
theorem c3_kill_reward (s : GameState) (pid eid : ℕ) (p : Projectile) (e : Enemy)
    (hfp : s.projectiles.find? (fun q => q.pid == pid) = some p)
    (hfe : s.enemies.find? (fun e2 => e2.eid == eid) = some e)
    (hkill : e.hp - finalDamageOf p e ≤ 0)
    (hlvl : 1 ≤ s.stats.level) :
    (handleHit s pid eid).stats.gold =
      s.stats.gold + (⌊(40 + (s.stats.level : ℚ) * 8) * goldMult e.archetype⌋ : ℚ) ∧
    (handleHit s pid eid).stats.score =
      s.stats.score + 800 * (s.stats.level : ℚ) * scoreMult e.archetype ∧
    s.stats.gold < (handleHit s pid eid).stats.gold ∧
    s.stats.score < (handleHit s pid eid).stats.score := by
  have hmain : handleHit s pid eid =
      { s with
        projectiles := removeFirst (fun q => q.pid == pid) s.projectiles
        enemies := removeFirst (fun e2 => e2.eid == eid) s.enemies
        stats := { s.stats with
          gold := s.stats.gold +
            (if e.archetype = .GOLIATH then (40 + (⌊(s.stats.level : ℚ) * 8⌋ : ℚ)) * 2.5
             else if e.archetype = .BOSS then (40 + (⌊(s.stats.level : ℚ) * 8⌋ : ℚ)) * 10
             else 40 + (⌊(s.stats.level : ℚ) * 8⌋ : ℚ))
          score := s.stats.score +
            (if e.archetype = .GOLIATH then 800 * (s.stats.level : ℚ) * 2
             else if e.archetype = .BOSS then 800 * (s.stats.level : ℚ) * 10
             else 800 * (s.stats.level : ℚ)) } } := by
    unfold handleHit
    rw [hfp, hfe]
    simp only [if_pos hkill]
  have hL : (0 : ℚ) < (s.stats.level : ℚ) := by
    exact_mod_cast Nat.lt_of_lt_of_le Nat.zero_lt_one hlvl
  have hgoldpos : (0 : ℚ) < (⌊(40 + (s.stats.level : ℚ) * 8) * goldMult e.archetype⌋ : ℚ) := by
    rw [← goldReward_floor s.stats.level e.archetype]
    have h8 : (0 : ℚ) ≤ (⌊(s.stats.level : ℚ) * 8⌋ : ℚ) := by
      have : (0 : ℤ) ≤ ⌊(s.stats.level : ℚ) * 8⌋ :=
        Int.floor_nonneg.mpr (by positivity)
      exact_mod_cast this
    cases e.archetype <;> simp <;> nlinarith
  have hscorepos : (0 : ℚ) < 800 * (s.stats.level : ℚ) * scoreMult e.archetype := by
    cases e.archetype <;> simp [scoreMult] <;> nlinarith
  rw [hmain]
  refine ⟨by rw [goldReward_floor s.stats.level e.archetype], ?_, ?_, ?_⟩
  · cases e.archetype <;> simp [scoreMult] <;> ring
  · simp only []
    rw [goldReward_floor s.stats.level e.archetype]
    linarith
  · have hsc : (if e.archetype = .GOLIATH then 800 * (s.stats.level : ℚ) * 2
        else if e.archetype = .BOSS then 800 * (s.stats.level : ℚ) * 10
        else 800 * (s.stats.level : ℚ)) =
          800 * (s.stats.level : ℚ) * scoreMult e.archetype := by
      cases e.archetype <;> simp [scoreMult] <;> ring
    rw [hsc]
    linarith

/-- Witness for C3 at a concrete input: killing a SENTINEL at level 1 adds
48 gold and 800 score. -/
theorem c3_kill_reward_witness :
    (handleHit wKillState 7 5).stats.gold = wKillState.stats.gold + 48 ∧
    (handleHit wKillState 7 5).stats.score = wKillState.stats.score + 800 := by
  have hfd : finalDamageOf wBasicProj wDying = 10 := by
    unfold finalDamageOf
    simp [wBasicProj, wDying]
  have h := c3_kill_reward wKillState 7 5 wBasicProj wDying rfl rfl
    (by rw [hfd]; norm_num [wDying]) (by norm_num [wKillState, baseState, baseStats])
  refine ⟨?_, ?_⟩
  · rw [h.1]
    norm_num [wKillState, baseState, baseStats, wDying, goldMult]
  · rw [h.2.1]
    norm_num [wKillState, baseState, baseStats, wDying, scoreMult]

/-- An expensive tower archetype (cost 1000), used by the C4 witness. -/
def expensiveCfg : TowerConfig :=
  { id := "sniper", cost := 1000, damage := 120, range := 320, fireRate := 2200 }

/-- A state whose 500 gold cannot afford `expensiveCfg`, used by the C4
witness. -/
def wPoorState : GameState :=
  { baseState with currentTowerType := some expensiveCfg }

/-- Claim C4: with a selected tower type, a placement attempt with
insufficient gold or a point near the path leaves the whole state
unchanged; otherwise it deducts the cost, increments `towerCount` by one
and appends exactly one tower. -/
theorem c4_place_tower (s : GameState) (p : Point) (cfg : TowerConfig)
    (hsel : s.currentTowerType = some cfg) :
    ((s.stats.gold < cfg.cost ∨ checkPathProximity s p = true) → placeTower s p = s) ∧
    (¬ s.stats.gold < cfg.cost → checkPathProximity s p = false →
      (placeTower s p).stats.gold = s.stats.gold - cfg.cost ∧
      (placeTower s p).stats.towerCount = s.stats.towerCount + 1 ∧
      (placeTower s p).towers = s.towers ++
        [{ id := s.nextTowerId, pos := p, level := 1, config := cfg,
           targetingPriority := .FIRST, nextFire := 0 }]) := by
  constructor
  · rintro (h | h)
    · unfold placeTower
      rw [hsel]
      simp [h]
    · unfold placeTower
      rw [hsel]
      by_cases hg : s.stats.gold < cfg.cost
      · simp [hg]
      · simp [hg, h]
  · intro hg hpx
    unfold placeTower
    rw [hsel]
    simp [hg, hpx]

/-- Witness for C4 at a concrete input: placing a 1000-cost tower with 500
gold changes nothing. -/
theorem c4_place_tower_witness : placeTower wPoorState ⟨200, 200⟩ = wPoorState := by
  refine (c4_place_tower wPoorState ⟨200, 200⟩ expensiveCfg rfl).1 (Or.inl ?_)
  norm_num [wPoorState, baseState, baseStats, expensiveCfg]

theorem find?_updateFirst {α : Type} {p : α → Bool} {f : α → α}
    (hpf : ∀ a, p a = true → p (f a) = true) :
    ∀ {l : List α} {a : α}, l.find? p = some a →
      (updateFirst p f l).find? p = some (f a) := by
  intro l
  induction l with
  | nil => intro a h; simp at h
  | cons b l ih =>
    intro a h
    by_cases hb : p b
    · rw [List.find?_cons_of_pos _ hb] at h
      cases h
      simp only [updateFirst, if_pos hb]
      exact List.find?_cons_of_pos _ (hpf _ hb)
    · rw [List.find?_cons_of_neg _ hb] at h
      simp only [updateFirst, if_neg hb]
      rw [List.find?_cons_of_neg _ hb]
      exact ih h

/-- The spec's N-fold damage chain: N nested applications of
`x ↦ ⌊x * 1.5⌋` to the base damage. -/
def damageChain : ℕ → ℚ → ℚ
  | 0, b => b
  | n + 1, b => (⌊damageChain n b * 1.5⌋ : ℚ)

/-- The spec's N-fold fire-rate chain: N nested applications of
`x ↦ ⌊x * 0.85⌋` to the base fire rate. -/
def rateChain : ℕ → ℚ → ℚ
  | 0, b => b
  | n + 1, b => (⌊rateChain n b * 0.85⌋ : ℚ)

theorem damageChain_shift (n : ℕ) (b : ℚ) :
    damageChain n (⌊b * 1.5⌋ : ℚ) = damageChain (n + 1) b := by
  induction n with
  | zero => simp [damageChain]
  | succ m ih =>
    show (⌊damageChain m (⌊b * 1.5⌋ : ℚ) * 1.5⌋ : ℚ) = _
    rw [ih]
    rfl

theorem rateChain_shift (n : ℕ) (b : ℚ) :
    rateChain n (⌊b * 0.85⌋ : ℚ) = rateChain (n + 1) b := by
  induction n with
  | zero => simp [rateChain]
  | succ m ih =>
    show (⌊rateChain m (⌊b * 0.85⌋ : ℚ) * 0.85⌋ : ℚ) = _
    rw [ih]
    rfl

theorem upgradeTowerF_id (t : Tower) (tid : ℕ) (h : (t.id == tid) = true) :
    ((upgradeTowerF t).id == tid) = true := h

theorem upgrade_iterate (tid : ℕ) : ∀ (N : ℕ) (s : GameState) (t : Tower),
    s.towers.find? (fun t2 => t2.id == tid) = some t →
    ∃ tN, ((fun st => upgradeTower st tid)^[N] s).towers.find?
        (fun t2 => t2.id == tid) = some tN ∧
      tN.level = t.level + N ∧
      tN.config.damage = damageChain N t.config.damage ∧
      tN.config.fireRate = rateChain N t.config.fireRate := by
  intro N
  induction N with
  | zero =>
    intro s t h
    exact ⟨t, h, by simp, by simp [damageChain], by simp [rateChain]⟩
  | succ n ih =>
    intro s t h
    have hup : upgradeTower s tid =
        { s with towers := updateFirst (fun t2 => t2.id == tid) upgradeTowerF s.towers } := by
      unfold upgradeTower
      rw [h]
      simp
    have hf1 : (upgradeTower s tid).towers.find? (fun t2 => t2.id == tid) =
        some (upgradeTowerF t) := by
      rw [hup]
      exact find?_updateFirst (fun a => upgradeTowerF_id a tid) h
    obtain ⟨tN, hfind, hlvl, hdmg, hrate⟩ := ih (upgradeTower s tid) (upgradeTowerF t) hf1
    rw [Function.iterate_succ_apply]
    refine ⟨tN, hfind, ?_, ?_, ?_⟩
    · rw [hlvl]
      simp only [upgradeTowerF]
      omega
    · rw [hdmg]
      simp only [upgradeTowerF]
      exact damageChain_shift n t.config.damage
    · rw [hrate]
      simp only [upgradeTowerF]
      exact rateChain_shift n t.config.fireRate

/-- A tower with base damage 10 and fire rate 1000, used by the C5
witness. -/
def wTower : Tower :=
  { id := 3, pos := ⟨300, 300⟩, level := 1,
    config := { id := "basic", cost := 100, damage := 10, range := 150, fireRate := 1000 },
    targetingPriority := .FIRST, nextFire := 0 }

/-- A state holding `wTower`, used by the C5 witness. -/
def wTowerState : GameState :=
  { baseState with towers := [wTower] }

/-- Claim C5: upgrading a missing tower id is a no-op; upgrading an
existing tower unconditionally (no gold check, no level cap) bumps its
level by 1, floors damage×1.5 and fire-rate×0.85; N upgrades produce the
N-fold nested-floor chains. -/
theorem c5_upgrade (s : GameState) (tid : ℕ) :
    (s.towers.find? (fun t2 => t2.id == tid) = none → upgradeTower s tid = s) ∧
    (∀ t, s.towers.find? (fun t2 => t2.id == tid) = some t →
      (upgradeTower s tid).towers =
        updateFirst (fun t2 => t2.id == tid) upgradeTowerF s.towers ∧
      (upgradeTower s tid).towers.find? (fun t2 => t2.id == tid) =
        some { t with
          level := t.level + 1
          config := { t.config with
            damage := (⌊t.config.damage * 1.5⌋ : ℚ)
            fireRate := (⌊t.config.fireRate * 0.85⌋ : ℚ) } }) ∧
    (∀ N t, s.towers.find? (fun t2 => t2.id == tid) = some t →
      ∃ tN, ((fun st => upgradeTower st tid)^[N] s).towers.find?
          (fun t2 => t2.id == tid) = some tN ∧
        tN.level = t.level + N ∧
        tN.config.damage = damageChain N t.config.damage ∧
        tN.config.fireRate = rateChain N t.config.fireRate) := by
  refine ⟨?_, ?_, fun N t h => upgrade_iterate tid N s t h⟩
  · intro h
    unfold upgradeTower
    rw [h]
    simp
  · intro t h
    have hup : upgradeTower s tid =
        { s with towers := updateFirst (fun t2 => t2.id == tid) upgradeTowerF s.towers } := by
      unfold upgradeTower
      rw [h]
      simp
    refine ⟨by rw [hup], ?_⟩
    rw [hup]
    exact find?_updateFirst (fun a => upgradeTowerF_id a tid) h

/-- Witness for C5 at a concrete input: two upgrades of a (damage 10,
fire rate 1000) tower yield level 3, damage ⌊⌊10·1.5⌋·1.5⌋ = 22 and fire
rate ⌊⌊1000·0.85⌋·0.85⌋ = 722. -/
theorem c5_upgrade_witness :
    ∃ tN, ((fun st => upgradeTower st 3)^[2] wTowerState).towers.find?
        (fun t2 => t2.id == 3) = some tN ∧
      tN.level = 3 ∧ tN.config.damage = 22 ∧ tN.config.fireRate = 722 := by
  obtain ⟨tN, h1, h2, h3, h4⟩ := (c5_upgrade wTowerState 3).2.2 2 wTower rfl
  have hd1 : (⌊(10 : ℚ) * 1.5⌋ : ℤ) = 15 := by
    rw [Int.floor_eq_iff] <;> norm_num
  have hd2 : (⌊(15 : ℚ) * 1.5⌋ : ℤ) = 22 := by
    rw [Int.floor_eq_iff] <;> norm_num
  have hr1 : (⌊(1000 : ℚ) * 0.85⌋ : ℤ) = 850 := by
    rw [Int.floor_eq_iff] <;> norm_num
  have hr2 : (⌊(850 : ℚ) * 0.85⌋ : ℤ) = 722 := by
    rw [Int.floor_eq_iff] <;> norm_num
  refine ⟨tN, h1, ?_, ?_, ?_⟩
  · rw [h2]
    rfl
  · rw [h3]
    show damageChain 2 wTower.config.damage = 22
    rw [show wTower.config.damage = (10 : ℚ) from rfl]
    simp only [damageChain]
    rw [hd1]
    push_cast
    rw [hd2]
    norm_num
  · rw [h4]
    show rateChain 2 wTower.config.fireRate = 722
    rw [show wTower.config.fireRate = (1000 : ℚ) from rfl]
    simp only [rateChain]
    rw [hr1]
    push_cast
    rw [hr2]
    norm_num

/-- Claim C6: `startWave` is a no-op while a wave is in progress; otherwise
it raises the wave flag and sets `enemiesRemaining` to `max 1 ⌊level/5⌋` on
boss levels (`level % 10 == 0`) and `20 + ⌊level*8⌋` otherwise; at level 1
this is 28 and at level 10 it is 2. -/
theorem c6_start_wave (s : GameState) :
    (s.waveInProgress = true → startWave s = s) ∧
    (s.waveInProgress = false →
      (startWave s).waveInProgress = true ∧
      (startWave s).enemiesRemaining =
        (if s.stats.level % 10 = 0 then max 1 (s.stats.level / 5)
         else 20 + s.stats.level * 8) ∧
      (s.stats.level = 1 → (startWave s).enemiesRemaining = 28) ∧
      (s.stats.level = 10 → (startWave s).enemiesRemaining = 2)) := by
  have hdiv : ∀ L : ℕ, (⌊(L : ℚ) / 5⌋).toNat = L / 5 := by
    intro L
    rw [Int.floor_toNat, show (5 : ℚ) = ((5 : ℕ) : ℚ) by norm_num,
        Nat.floor_div_nat, Nat.floor_natCast]
  have hmul : ∀ L : ℕ, (⌊(L : ℚ) * 8⌋).toNat = L * 8 := by
    intro L
    rw [show ((L : ℕ) : ℚ) * 8 = ((L * 8 : ℕ) : ℚ) by push_cast; ring, Int.floor_natCast]
    exact Int.toNat_natCast _
  constructor
  · intro h
    unfold startWave
    rw [if_pos h]
  · intro h
    have hsw : startWave s =
        { s with
          waveInProgress := true
          stats := { s.stats with waveActive := true }
          enemiesRemaining :=
            if s.stats.level % 10 = 0 then
              max 1 (⌊(s.stats.level : ℚ) / 5⌋).toNat
            else 20 + (⌊(s.stats.level : ℚ) * 8⌋).toNat } := by
      unfold startWave
      rw [if_neg (by simp [h])]
    refine ⟨by rw [hsw], ?_, ?_, ?_⟩
    · rw [hsw]
      by_cases hb : s.stats.level % 10 = 0
      · simp only [hb, if_true, hdiv]
      · simp only [hb, if_false, hmul]
    · intro h1
      rw [hsw]
      simp only [h1]
      rw [if_neg (by norm_num), hmul 1]
    · intro h10
      rw [hsw]
      simp only [h10]
      rw [if_pos (by norm_num), hdiv 10]
      decide

/-- Witness for C6 at concrete inputs: starting the wave at level 1 yields
28 remaining enemies, and at level 10 (boss level) yields 2. -/
theorem c6_start_wave_witness :
    (startWave baseState).enemiesRemaining = 28 ∧
    (startWave { baseState with stats := { baseStats with level := 10 } }).enemiesRemaining = 2 := by
  constructor
  · exact ((c6_start_wave baseState).2 rfl).2.2.1 rfl
  · exact ((c6_start_wave { baseState with stats := { baseStats with level := 10 } }).2 rfl).2.2.2 rfl

theorem foldl_sel_mem {f : Enemy → Enemy → Enemy}
    (hf : ∀ a b, f a b = a ∨ f a b = b) :
    ∀ (l : List Enemy) (a : Enemy), l.foldl f a = a ∨ l.foldl f a ∈ l := by
  intro l
  induction l with
  | nil => intro a; exact Or.inl rfl
  | cons b l ih =>
    intro a
    rw [List.foldl_cons]
    rcases ih (f a b) with h | h
    · rcases hf a b with h2 | h2
      · exact Or.inl (by rw [h, h2])
      · exact Or.inr (by rw [h, h2]; exact List.mem_cons_self _ _)
    · exact Or.inr (List.mem_cons_of_mem _ h)

theorem foldl_selWeakest_le : ∀ (l : List Enemy) (a : Enemy),
    (l.foldl selWeakest a).hp ≤ a.hp ∧ ∀ x ∈ l, (l.foldl selWeakest a).hp ≤ x.hp := by
  intro l
  induction l with
  | nil => intro a; exact ⟨le_refl _, by simp⟩
  | cons b l ih =>
    intro a
    rw [List.foldl_cons]
    obtain ⟨h1, h2⟩ := ih (selWeakest a b)
    have hab : (selWeakest a b).hp ≤ a.hp ∧ (selWeakest a b).hp ≤ b.hp := by
      unfold selWeakest
      by_cases hc : a.hp < b.hp
      · rw [if_pos hc]; exact ⟨le_refl _, le_of_lt hc⟩
      · rw [if_neg hc]; exact ⟨le_of_not_lt hc, le_refl _⟩
    refine ⟨le_trans h1 hab.1, ?_⟩
    intro x hx
    rcases List.mem_cons.mp hx with rfl | hx
    · exact le_trans h1 hab.2
    · exact h2 x hx

theorem foldl_selStrongest_ge : ∀ (l : List Enemy) (a : Enemy),
    a.hp ≤ (l.foldl selStrongest a).hp ∧ ∀ x ∈ l, x.hp ≤ (l.foldl selStrongest a).hp := by
  intro l
  induction l with
  | nil => intro a; exact ⟨le_refl _, by simp⟩
  | cons b l ih =>
    intro a
    rw [List.foldl_cons]
    obtain ⟨h1, h2⟩ := ih (selStrongest a b)
    have hab : a.hp ≤ (selStrongest a b).hp ∧ b.hp ≤ (selStrongest a b).hp := by
      unfold selStrongest
      by_cases hc : a.hp > b.hp
      · rw [if_pos hc]; exact ⟨le_refl _, le_of_lt hc⟩
      · rw [if_neg hc]; exact ⟨le_of_not_lt hc, le_refl _⟩
    refine ⟨le_trans hab.1 h1, ?_⟩
    intro x hx
    rcases List.mem_cons.mp hx with rfl | hx
    · exact le_trans hab.2 h1
    · exact h2 x hx

theorem selFirst_or (a b : Enemy) : selFirst a b = a ∨ selFirst a b = b := by
  unfold selFirst; exact ite_eq_or_eq _ _ _

theorem selStrongest_or (a b : Enemy) : selStrongest a b = a ∨ selStrongest a b = b := by
  unfold selStrongest; exact ite_eq_or_eq _ _ _

theorem selWeakest_or (a b : Enemy) : selWeakest a b = a ∨ selWeakest a b = b := by
  unfold selWeakest; exact ite_eq_or_eq _ _ _

theorem selClosest_or (tw : Tower) (a b : Enemy) :
    selClosest tw a b = a ∨ selClosest tw a b = b := by
  unfold selClosest; exact ite_eq_or_eq _ _ _

/-- Claim C7: targeting filters the live enemies to those in range; an
empty result returns none and leaves the tower's `nextFire` untouched
through the firing sub-step; a returned target is an in-range enemy, of
minimal hp under WEAKEST and of maximal hp under STRONGEST; and the firing
sub-step acts on each tower exactly as `fireTowerUpdate`. -/
theorem c7_targeting (s : GameState) (tw : Tower) :
    (s.enemies.filter (inRangeOf tw) = [] → getPriorityTarget s tw = none) ∧
    (getPriorityTarget s tw = none → fireTowerUpdate s tw = tw) ∧
    (∀ e, getPriorityTarget s tw = some e → e ∈ s.enemies ∧ inRangeOf tw e = true) ∧
    (tw.targetingPriority = .WEAKEST → ∀ e, getPriorityTarget s tw = some e →
      ∀ e2 ∈ s.enemies, inRangeOf tw e2 = true → e.hp ≤ e2.hp) ∧
    (tw.targetingPriority = .STRONGEST → ∀ e, getPriorityTarget s tw = some e →
      ∀ e2 ∈ s.enemies, inRangeOf tw e2 = true → e2.hp ≤ e.hp) ∧
    (∀ pidStart towers, (fireStepAux s pidStart towers).1 =
      towers.map (fireTowerUpdate s)) := by
  refine ⟨?_, ?_, ?_, ?_, ?_, ?_⟩
  · intro h
    unfold getPriorityTarget
    rw [h]
  · intro h
    unfold fireTowerUpdate
    rw [h]
    simp
  · intro e he
    unfold getPriorityTarget at he
    rcases hl : s.enemies.filter (inRangeOf tw) with _ | ⟨h0, rest⟩
    · rw [hl] at he; cases he
    · rw [hl] at he
      injection he with he
      have hmem : e ∈ h0 :: rest := by
        rcases htp : tw.targetingPriority with _ | _ | _ | _ <;> rw [htp] at he
        · rcases foldl_sel_mem selFirst_or rest h0 with h | h
          · rw [← he, h]; exact List.mem_cons_self _ _
          · rw [← he]; exact List.mem_cons_of_mem _ h
        · rcases foldl_sel_mem selStrongest_or rest h0 with h | h
          · rw [← he, h]; exact List.mem_cons_self _ _
          · rw [← he]; exact List.mem_cons_of_mem _ h
        · rcases foldl_sel_mem selWeakest_or rest h0 with h | h
          · rw [← he, h]; exact List.mem_cons_self _ _
          · rw [← he]; exact List.mem_cons_of_mem _ h
        · rcases foldl_sel_mem (selClosest_or tw) rest h0 with h | h
          · rw [← he, h]; exact List.mem_cons_self _ _
          · rw [← he]; exact List.mem_cons_of_mem _ h
      have := List.mem_filter.mp (hl ▸ hmem)
      exact ⟨this.1, this.2⟩
  · intro hpr e he e2 hmem2 hin2
    unfold getPriorityTarget at he
    rcases hl : s.enemies.filter (inRangeOf tw) with _ | ⟨h0, rest⟩
    · rw [hl] at he; cases he
    · rw [hl, hpr] at he
      injection he with he
      have h2 : e2 ∈ h0 :: rest := by
        rw [← hl]; exact List.mem_filter.mpr ⟨hmem2, hin2⟩
      obtain ⟨hh, hall⟩ := foldl_selWeakest_le rest h0
      rw [← he]
      rcases List.mem_cons.mp h2 with rfl | h2
      · exact hh
      · exact hall _ h2
  · intro hpr e he e2 hmem2 hin2
    unfold getPriorityTarget at he
    rcases hl : s.enemies.filter (inRangeOf tw) with _ | ⟨h0, rest⟩
    · rw [hl] at he; cases he
    · rw [hl, hpr] at he
      injection he with he
      have h2 : e2 ∈ h0 :: rest := by
        rw [← hl]; exact List.mem_filter.mpr ⟨hmem2, hin2⟩
      obtain ⟨hh, hall⟩ := foldl_selStrongest_ge rest h0
      rw [← he]
      rcases List.mem_cons.mp h2 with rfl | h2
      · exact hh
      · exact hall _ h2
  · intro pidStart towers
    induction towers generalizing pidStart with
    | nil => rfl
    | cons tw2 rest ih =>
      by_cases hc : tw2.nextFire < s.scaledTime
      · rcases hg : getPriorityTarget s tw2 with _ | tgt
        · simp only [fireStepAux, if_pos hc, hg, List.map_cons]
          rw [ih pidStart]
          unfold fireTowerUpdate
          rw [if_pos hc, hg]
        · simp only [fireStepAux, if_pos hc, hg, List.map_cons]
          rw [ih (pidStart + 1)]
          unfold fireTowerUpdate
          rw [if_pos hc, hg]
      · simp only [fireStepAux, if_neg hc, List.map_cons]
        rw [ih pidStart]
        unfold fireTowerUpdate
        rw [if_neg hc]

/-- The WEAKEST-priority tower used by the C7 witness. -/
def wcTower : Tower :=
  { id := 9, pos := ⟨0, 0⟩, level := 1,
    config := { id := "basic", cost := 100, damage := 10, range := 100, fireRate := 800 },
    targetingPriority := .WEAKEST, nextFire := 0 }

/-- An in-range enemy with 30 hp, used by the C7 witness. -/
def wE30 : Enemy :=
  { eid := 1, archetype := .SENTINEL, hp := 30, maxHp := 30, speed := 1,
    t := 0, pos := ⟨0, 0⟩ }

/-- An in-range enemy with 10 hp, used by the C7 witness. -/
def wE10 : Enemy :=
  { eid := 2, archetype := .SENTINEL, hp := 10, maxHp := 10, speed := 1,
    t := 0, pos := ⟨10, 0⟩ }

/-- An in-range enemy with 50 hp, used by the C7 witness. -/
def wE50 : Enemy :=
  { eid := 3, archetype := .SENTINEL, hp := 50, maxHp := 50, speed := 1,
    t := 0, pos := ⟨20, 0⟩ }

/-- A state with enemies of hp 30, 10 and 50 in range of the tower, used by
the C7 witness. -/
def wTargetState : GameState :=
  { baseState with enemies := [wE30, wE10, wE50] }

/-- Witness for C7 at concrete inputs: among in-range enemies with hp
{30, 10, 50}, WEAKEST selects the hp-10 enemy (its hp is minimal among the
in-range enemies); with no enemies the resolver returns none and the tower
record is untouched by the firing step. -/
theorem c7_targeting_witness :
    (∀ e2 ∈ wTargetState.enemies, inRangeOf wcTower e2 = true → wE10.hp ≤ e2.hp) ∧
    getPriorityTarget baseState wcTower = none ∧
    fireTowerUpdate baseState wcTower = wcTower := by
  have h30 : inRangeOf wcTower wE30 = true := by
    simp only [inRangeOf, decide_eq_true_eq]
    norm_num [dist2, wcTower, wE30]
  have h10 : inRangeOf wcTower wE10 = true := by
    simp only [inRangeOf, decide_eq_true_eq]
    norm_num [dist2, wcTower, wE10]
  have h50 : inRangeOf wcTower wE50 = true := by
    simp only [inRangeOf, decide_eq_true_eq]
    norm_num [dist2, wcTower, wE50]
  have hfilter : wTargetState.enemies.filter (inRangeOf wcTower) = [wE30, wE10, wE50] := by
    show List.filter (inRangeOf wcTower) [wE30, wE10, wE50] = [wE30, wE10, wE50]
    rw [List.filter_cons, List.filter_cons, List.filter_cons]
    simp [h30, h10, h50]
  have hw1 : selWeakest wE30 wE10 = wE10 := by
    unfold selWeakest
    rw [if_neg (by norm_num [wE30, wE10])]
  have hw2 : selWeakest wE10 wE50 = wE10 := by
    unfold selWeakest
    rw [if_pos (by norm_num [wE10, wE50])]
  have hsel : getPriorityTarget wTargetState wcTower = some wE10 := by
    unfold getPriorityTarget
    rw [hfilter]
    show some ([wE10, wE50].foldl selWeakest wE30) = some wE10
    rw [List.foldl_cons, hw1, List.foldl_cons, hw2, List.foldl_nil]
  have hnone : getPriorityTarget baseState wcTower = none :=
    (c7_targeting baseState wcTower).1 rfl
  refine ⟨?_, hnone, (c7_targeting baseState wcTower).2.1 hnone⟩
  intro e2 hm hr
  exact (c7_targeting wTargetState wcTower).2.2.2.1 rfl wE10 hsel e2 hm hr

theorem genWaypoints_length (w h : ℚ) (seg : ℕ) :
    ∀ (idxs : List ℕ) (rng : List ℚ),
      ((genWaypoints w h seg idxs rng).1).length = idxs.length := by
  intro idxs
  induction idxs with
  | nil => intro rng; rfl
  | cons i rest ih =>
    intro rng
    by_cases hi : i = seg
    · simp only [genWaypoints, if_pos hi, List.length_cons, ih]
    · simp only [genWaypoints, if_neg hi, List.length_cons, ih]

theorem createPath_length (w h : ℚ) (lvl : ℕ) (rng : List ℚ) :
    ((createPath w h lvl rng).1).length =
      min (3 + (⌊(lvl : ℚ) / 2.5⌋).toNat) 15 + 1 := by
  unfold createPath
  simp only [List.length_cons, genWaypoints_length, List.length_map, List.length_range]

/-- A state at level 30, used by the C8 witness. -/
def wLevel30State : GameState :=
  { baseState with stats := { baseStats with level := 30 } }

/-- Claim C8: `completeLevel` clears the wave flags, increments the level,
grants `350 + newLevel*60` gold; past level 30 it fires the terminal
(WIN) callback and leaves the path alone, otherwise it regenerates the
path for the new level with `min(3 + ⌊newLevel/2.5⌋, 15)` segments (one
more waypoint than segments). -/
theorem c8_complete_level (s : GameState) :
    (completeLevel s).waveInProgress = false ∧
    (completeLevel s).stats.waveActive = false ∧
    (completeLevel s).stats.level = s.stats.level + 1 ∧
    (completeLevel s).stats.gold = s.stats.gold + (350 + ((s.stats.level : ℚ) + 1) * 60) ∧
    (30 < s.stats.level + 1 →
      (completeLevel s).gameOverFired = true ∧ (completeLevel s).path = s.path) ∧
    (s.stats.level + 1 ≤ 30 →
      (completeLevel s).path = (createPath s.width s.height (s.stats.level + 1) s.rng).1 ∧
      (completeLevel s).path.length =
        min (3 + (⌊((s.stats.level : ℕ) + 1 : ℚ) / 2.5⌋).toNat) 15 + 1) := by
  have hcast : (((s.stats.level + 1 : ℕ)) : ℚ) = ((s.stats.level : ℚ) + 1) := by push_cast; ring
  by_cases h : 30 < s.stats.level + 1
  · have hcl : completeLevel s =
        { s with
          waveInProgress := false
          stats := { s.stats with
            waveActive := false
            level := s.stats.level + 1
            gold := s.stats.gold + (350 + ((s.stats.level + 1 : ℕ) : ℚ) * 60) }
          gameOverFired := true } := by
      unfold completeLevel
      rw [if_pos h]
    rw [hcl]
    refine ⟨rfl, rfl, rfl, by rw [hcast], fun _ => ⟨rfl, rfl⟩, fun hle => absurd h (by omega)⟩
  · have hcl : completeLevel s =
        { s with
          waveInProgress := false
          stats := { s.stats with
            waveActive := false
            level := s.stats.level + 1
            gold := s.stats.gold + (350 + ((s.stats.level + 1 : ℕ) : ℚ) * 60) }
          path := (createPath s.width s.height (s.stats.level + 1) s.rng).1
          rng := (createPath s.width s.height (s.stats.level + 1) s.rng).2 } := by
      unfold completeLevel
      rw [if_neg h]
    rw [hcl]
    refine ⟨rfl, rfl, rfl, by rw [hcast], fun hgt => absurd hgt h, fun _ => ⟨rfl, ?_⟩⟩
    show ((createPath s.width s.height (s.stats.level + 1) s.rng).1).length = _
    rw [createPath_length, hcast]

/-- Witness for C8 at concrete inputs: completing at level 30 gives level
31 with the terminal callback fired and the path untouched; completing at
level 1 regenerates a 3-segment path (4 waypoints). -/
theorem c8_complete_level_witness :
    (completeLevel wLevel30State).stats.level = 31 ∧
    (completeLevel wLevel30State).gameOverFired = true ∧
    (completeLevel wLevel30State).path = wLevel30State.path ∧
    (completeLevel baseState).path.length = 4 := by
  have h30 := c8_complete_level wLevel30State
  have h1 := c8_complete_level baseState
  have hwin := h30.2.2.2.2.1 (by norm_num [wLevel30State, baseStats])
  refine ⟨?_, hwin.1, hwin.2, ?_⟩
  · rw [h30.2.2.1]
    rfl
  · rw [(h1.2.2.2.2.2 (by norm_num [baseState, baseStats])).2]
    rw [show ((baseState.stats.level : ℕ) + 1 : ℚ) = (2 : ℚ) by norm_num [baseState, baseStats]]
    rw [show ⌊(2 : ℚ) / 2.5⌋ = 0 from by
      rw [Int.floor_eq_zero_iff]
      constructor <;> norm_num]
    rfl

theorem projectileStepAux_eq_filter (enemies : List Enemy) :
    ∀ ps : List Projectile, projectileStepAux enemies ps =
      ps.filter (fun p => (enemies.find? (fun e => e.eid == p.target)).isSome) := by
  intro ps
  induction ps with
  | nil => rfl
  | cons p rest ih =>
    by_cases hp : (enemies.find? (fun e => e.eid == p.target)).isSome
    · simp only [projectileStepAux, if_pos hp, List.filter_cons, hp, ih]
    · simp only [projectileStepAux, if_neg hp, List.filter_cons, ih]

/-- A projectile whose target id 99 matches no enemy, used by the C9
witness. -/
def wStaleProj : Projectile :=
  { pid := 7, damage := 10, towerId := "basic", target := 99, pos := ⟨0, 0⟩ }

/-- An enemy-free state holding only `wStaleProj`, used by the C9
witness. -/
def wStaleState : GameState :=
  { baseState with projectiles := [wStaleProj] }

/-- Claim C9: resolving a hit whose projectile or enemy is already gone is
a silent no-op, and the projectile sub-step of the tick exactly removes the
projectiles whose target enemy no longer exists, changing no enemy and no
stats. -/
theorem c9_stale_references (s : GameState) (pid eid : ℕ) :
    ((s.projectiles.find? (fun q => q.pid == pid) = none ∨
      s.enemies.find? (fun e2 => e2.eid == eid) = none) →
      handleHit s pid eid = s) ∧
    (projectileStep s).projectiles =
      s.projectiles.filter
        (fun p => (s.enemies.find? (fun e => e.eid == p.target)).isSome) ∧
    (projectileStep s).enemies = s.enemies ∧
    (projectileStep s).stats = s.stats := by
  refine ⟨?_, projectileStepAux_eq_filter s.enemies s.projectiles, rfl, rfl⟩
  rintro (h | h)
  · unfold handleHit
    rcases h2 : s.enemies.find? (fun e2 => e2.eid == eid) with _ | e <;> rw [h, h2]
  · unfold handleHit
    rcases h2 : s.projectiles.find? (fun q => q.pid == pid) with _ | q <;> rw [h, h2]

/-- Witness for C9 at a concrete input: with no enemies alive, resolving
the stale hit changes nothing and the next projectile sub-step removes the
orphaned projectile without touching enemies or stats. -/
theorem c9_stale_references_witness :
    handleHit wStaleState 7 99 = wStaleState ∧
    (projectileStep wStaleState).projectiles = [] ∧
    (projectileStep wStaleState).enemies = wStaleState.enemies ∧
    (projectileStep wStaleState).stats = wStaleState.stats := by
  have h := c9_stale_references wStaleState 7 99
  refine ⟨h.1 (Or.inr rfl), ?_, h.2.2.1, h.2.2.2⟩
  rw [h.2.1]
  rfl

theorem updateFirst_length {α : Type} (p : α → Bool) (f : α → α) :
    ∀ l : List α, (updateFirst p f l).length = l.length := by
  intro l
  induction l with
  | nil => rfl
  | cons a l ih =>
    by_cases ha : p a
    · simp only [updateFirst, if_pos ha, List.length_cons]
    · simp only [updateFirst, if_neg ha, List.length_cons, ih]

theorem updateFirst_get?_of_neg {α : Type} (p : α → Bool) (f : α → α) :
    ∀ (l : List α) (i : ℕ) (a : α), l.get? i = some a → p a = false →
      (updateFirst p f l).get? i = some a := by
  intro l
  induction l with
  | nil => intro i a h _; simp at h
  | cons b l ih =>
    intro i a h hp
    cases i with
    | zero =>
      rw [List.get?_cons_zero] at h
      injection h with h
      subst h
      have hb : ¬ p b = true := by rw [hp]; exact Bool.false_ne_true
      simp only [updateFirst, if_neg hb, List.get?_cons_zero]
    | succ j =>
      rw [List.get?_cons_succ] at h
      by_cases hb : p b
      · simp only [updateFirst, if_pos hb, List.get?_cons_succ]
        exact h
      · simp only [updateFirst, if_neg hb, List.get?_cons_succ]
        exact ih j a h hp

/-- A cheap tower archetype, used by the C10 witness. -/
def basicCfg : TowerConfig :=
  { id := "basic", cost := 100, damage := 10, range := 150, fireRate := 800 }

/-- A pathless state with `basicCfg` selected, used by the C10 witness. -/
def wPlaceState : GameState :=
  { baseState with path := [], currentTowerType := some basicCfg }

/-- Claim C10: a successful placement appends a tower with level 1,
nextFire 0, targeting priority FIRST and a value copy of the selected
config; upgrading a tower never touches the scene's selected archetype
config and leaves every tower with a different id exactly as it was. -/
theorem c10_fresh_config (s : GameState) (p : Point) (cfg : TowerConfig)
    (hsel : s.currentTowerType = some cfg)
    (hgold : ¬ s.stats.gold < cfg.cost)
    (hprox : checkPathProximity s p = false) :
    (placeTower s p).towers = s.towers ++
      [{ id := s.nextTowerId, pos := p, level := 1, config := cfg,
         targetingPriority := .FIRST, nextFire := 0 }] ∧
    (∀ (s2 : GameState) (tid : ℕ),
      (upgradeTower s2 tid).currentTowerType = s2.currentTowerType) ∧
    (∀ (s2 : GameState) (tid : ℕ),
      (upgradeTower s2 tid).towers.length = s2.towers.length) ∧
    (∀ (s2 : GameState) (tid i : ℕ) (t : Tower),
      s2.towers.get? i = some t → (t.id == tid) = false →
      (upgradeTower s2 tid).towers.get? i = some t) := by
  refine ⟨?_, ?_, ?_, ?_⟩
  · unfold placeTower
    rw [hsel]
    simp [hgold, hprox]
  · intro s2 tid
    by_cases h : (s2.towers.find? (fun t => t.id == tid)).isSome <;>
      simp [upgradeTower, h]
  · intro s2 tid
    by_cases h : (s2.towers.find? (fun t => t.id == tid)).isSome
    · simp only [upgradeTower, if_pos h]
      exact updateFirst_length _ _ s2.towers
    · simp only [upgradeTower, if_neg h]
  · intro s2 tid i t ht hne
    by_cases h : (s2.towers.find? (fun t2 => t2.id == tid)).isSome
    · have hup : (upgradeTower s2 tid).towers =
          updateFirst (fun t2 => t2.id == tid) upgradeTowerF s2.towers := by
        simp only [upgradeTower, if_pos h]
      rw [hup]
      exact updateFirst_get?_of_neg _ _ s2.towers i t ht hne
    · have hup : (upgradeTower s2 tid).towers = s2.towers := by
        simp only [upgradeTower, if_neg h]
      rw [hup]
      exact ht

/-- Witness for C10 at a concrete input: placing on the pathless scene
appends the fresh level-1 FIRST-priority tower carrying a copy of
`basicCfg`, and upgrading it leaves the selected archetype config
untouched. -/
theorem c10_fresh_config_witness :
    (placeTower wPlaceState ⟨200, 200⟩).towers =
      [{ id := 0, pos := ⟨200, 200⟩, level := 1, config := basicCfg,
         targetingPriority := .FIRST, nextFire := 0 }] ∧
    (upgradeTower (placeTower wPlaceState ⟨200, 200⟩) 0).currentTowerType =
      (placeTower wPlaceState ⟨200, 200⟩).currentTowerType := by
  have h := c10_fresh_config wPlaceState ⟨200, 200⟩ basicCfg rfl
    (by norm_num [wPlaceState, baseState, baseStats, basicCfg]) rfl
  exact ⟨by rw [h.1]; rfl, h.2.1 _ 0⟩

end TowerDefence
